import Mathlib

/-!
Shallow embedding of the core pipeline of the cloud-image-download
repository (Rust), together with theorems settling the frozen claims
about its specification.

Conventions of the embedding:
* Rust `String` values become Lean `String`; Rust byte-wise lexicographic
  `String::cmp` coincides, on valid UTF-8, with code-point lexicographic
  comparison, embedded below as `charsCmp` on `List Char`.
* The HTTP / HTML-parsing collaborators (reqwest + scraper) are opaque:
  they are modelled by an environment `Env` mapping a URL to the list of
  inner-html strings of the page's anchor tags (`pageLinks`), to a raw
  body (`body`), and so on.  A `none` result models a network / parse
  failure.
* The sqlite history database is modelled as a list of rows plus flags
  selecting the failure modes of `prepare` and `query`.
* The repository snapshot mixes two revisions: `website.rs` and
  `image_list.rs` work with a two-field `CloudImage { url, checksum }`
  (here `CloudImageIL`), while `cloud_image.rs`, `download.rs` and
  `image_history.rs` work with a four-field
  `CloudImage { url, name, checksum, date }` (here `CloudImage`).  Each
  function is embedded against the file it lives in.
* `u16` counters are embedded as `Nat` with explicit `% 65536`
  (release-profile wrapping semantics of Rust integer overflow).
-/

/-! ### Basic string machinery shared by several source functions -/

/-- Rust `str::contains(needle)`: some contiguous sublist of `hay`
equals `needle`. -/
def strContains (hay needle : String) : Bool :=
  hay.data.tails.any (fun t => needle.data.isPrefixOf t)

/-- Lexicographic comparison of char lists by code point.  This embeds
Rust `String::cmp`, which compares UTF-8 bytes lexicographically; on
valid UTF-8 the byte order and the code-point order agree. -/
def charsCmp : List Char → List Char → Ordering
  | [], [] => .eq
  | [], _ :: _ => .lt
  | _ :: _, [] => .gt
  | a :: as, b :: bs => if a < b then .lt else if b < a then .gt else charsCmp as bs

/-- Rust `sort_by(cmp)` (a stable sort).  For a total preorder `cmp` the
result of any stable sort is unique, and Mathlib's `insertionSort` with
the reflexive relation `cmp a b ≠ .gt` is such a stable sort, so the two
agree. -/
def rustSortBy {α : Type} (cmp : α → α → Ordering) (l : List α) : List α :=
  l.insertionSort (fun a b => cmp a b ≠ .gt)

/-- `ImageList::only_keep_last_element` (src/image_list.rs): if the list
is non-empty, keep only its last element (`swap_remove(len - 1)` returns
the last element and the list is replaced by the singleton). -/
def only_keep_last_element {α : Type} (l : List α) : List α :=
  match l.getLast? with
  | none => []
  | some x => [x]

/-! ### image_list.rs -/

/-- Regex `[2][0-9]{3}[0-1][0-9][0-3][0-9]` matches at the head of `cs`. -/
def dateAt (cs : List Char) : Bool :=
  match cs with
  | c0 :: c1 :: c2 :: c3 :: c4 :: c5 :: c6 :: c7 :: _ =>
    c0 = '2' && c1.isDigit && c2.isDigit && c3.isDigit &&
    ('0' ≤ c4 && c4 ≤ '1') && c5.isDigit && ('0' ≤ c6 && c6 ≤ '3') && c7.isDigit
  | _ => false

/-- Scan for the leftmost match of the date regex and return the eight
matched characters. -/
def getDateAux : List Char → Option String
  | [] => none
  | c :: rest =>
    if dateAt (c :: rest) then some (String.mk ((c :: rest).take 8))
    else getDateAux rest

/-- `get_date_from_string` (src/image_list.rs): first (leftmost) match of
the regex `[2][0-9]{3}[0-1][0-9][0-3][0-9]` in `name`, if any. -/
def get_date_from_string (name : String) : Option String :=
  getDateAux name.data

/-- `compare_str_by_date` (src/image_list.rs): compare the dates embedded
in the two strings; a string without a date sorts below one with a date;
two strings without dates are compared as plain strings. -/
def compare_str_by_date (a b : String) : Ordering :=
  match get_date_from_string a, get_date_from_string b with
  | some d1, some d2 => charsCmp d1.data d2.data
  | none, some _ => .lt
  | some _, none => .gt
  | none, none => charsCmp a.data b.data

/-- Sort key realizing `compare_str_by_date` as a single `charsCmp`
comparison: a leading '1' (has a date) dominates a leading '0'. -/
def dateSortKey (s : String) : List Char :=
  match get_date_from_string s with
  | some d => '1' :: d.data
  | none => '0' :: s.data

/-! ### website.rs : SiteResolver -/

/-- `filter_dates` (src/website.rs): the regex `\d{8}(?:-\d{4})?/$`
matches `inner`, i.e. `inner` ends with eight digits followed by `/`, or
with eight digits, `-`, four digits and `/`.  (`\d` restricted to ASCII
digits, the only ones occurring in directory listings.) -/
def filter_dates (inner : String) : Bool :=
  match inner.data.reverse with
  | '/' :: t =>
    ((t.take 8).length = 8 && (t.take 8).all Char.isDigit) ||
    (((t.take 4).length = 4 && (t.take 4).all Char.isDigit) &&
      (t.drop 4).head? = some '-' &&
      ((t.drop 5).take 8).length = 8 && ((t.drop 5).take 8).all Char.isDigit)
  | _ => false

/-- `str::replace("/", "")`: drop every `/`. -/
def removeSlashes (s : String) : String :=
  String.mk (s.data.filter (fun c => c ≠ '/'))

/-- `get_list_of_dates` (src/website.rs), with the fetched page abstracted
to the list `entries` of anchor inner-htmls (a failed fetch or empty body
yields `[]`).  Filter by `filter_dates`, strip the slashes, sort by
`compare_str_by_date` and keep only the last (most recent) element. -/
def get_list_of_dates (entries : List String) : List String :=
  let dates_list := (entries.filter filter_dates).map removeSlashes
  only_keep_last_element (rustSortBy compare_str_by_date dates_list)

/-- `WebSite` (src/website.rs).  The two regex lists are compiled at use
sites in the source; they are embedded as their match predicates. -/
structure WebSite where
  name : String
  version_list : List String
  base_url : String
  after_version_url : Option (List String)
  image_name_filter : String → Bool
  image_name_cleanse : Option (List (String → Bool))
  destination : String

/-- `WebSite::generate_url_list` (src/website.rs): first build
`{base_url}/{version}` — or `{base_url}/{version}/{after_version}` for
each `after_version` when `after_version_url` is configured — and then,
for each such url, descend into the latest dated subdirectory listed at
that url, if any.  `listing url` abstracts the anchor inner-htmls of the
page fetched at `url`. -/
def generate_url_list (site : WebSite) (listing : String → List String) : List String :=
  let url_list := site.version_list.flatMap (fun version =>
    match site.after_version_url with
    | some after => after.map (fun a => site.base_url ++ "/" ++ version ++ "/" ++ a)
    | none => [site.base_url ++ "/" ++ version])
  url_list.flatMap (fun url =>
    let list_of_dates := get_list_of_dates (listing url)
    if list_of_dates.isEmpty then [url]
    else list_of_dates.map (fun date => url ++ "/" ++ date))

/-! ### checksums.rs -/

/-- The checksum variants (src/checksums.rs `CheckSums`). -/
inductive CheckSums where
  | Sha256 (hex : String)
  | Sha512 (hex : String)
  | None
deriving DecidableEq, Repr

/-- `[a-f0-9]`: one lowercase hex digit. -/
def isHexLower (c : Char) : Bool :=
  ('a' ≤ c && c ≤ 'f') || ('0' ≤ c && c ≤ '9')

/-- The `k`-character window of `cs` starting at `p` exists and is all
lowercase hex. -/
def okWindow (k : Nat) (cs : List Char) (p : Nat) : Bool :=
  ((cs.drop p).take k).length = k && ((cs.drop p).take k).all isHexLower

/-- Capture of the Rust regex `.*([a-f0-9]{k}+).*` on `s` (regex crate,
leftmost-first greedy semantics, as in `build_checksums_from_line`).
The leading greedy `.*` consumes the longest prefix that still lets the
group match, so the group starts at the greatest position `p` followed by
`k` hex characters.  By that maximality at most `k` hex characters follow
`p` (otherwise `p + 1` would also work) and no further `{k}` block can
start at `p + k`, so the capture is exactly the window of length `k` at
the last viable start. -/
def regexHexCapture (k : Nat) (s : String) : Option String :=
  let cs := s.data
  match ((List.range (cs.length + 1)).filter (fun p => okWindow k cs p)).getLast? with
  | some p => some (String.mk ((cs.drop p).take k))
  | none => none

/-- `CheckSums::build_checksums_from_line` (src/checksums.rs): classify
the hash kind from the checksum-file name or the line, then extract the
capture of `.*([a-f0-9]{128}+).*` (resp. 64) from the line. -/
def build_checksums_from_line (line filename : String) : CheckSums :=
  if strContains filename "SHA512SUMS" || strContains line "SHA512" then
    match regexHexCapture 128 line with
    | some chksum => .Sha512 chksum
    | none => .None
  else if strContains filename "SHA256SUMS" || strContains line "SHA256" then
    match regexHexCapture 64 line with
    | some chksum => .Sha256 chksum
    | none => .None
  else .None

/-- `CheckSums::get_image_checksum_from_checksums_buffer`
(src/checksums.rs): scan the buffer line by line (`str::lines`, embedded
as splitting on newline), skip empty lines and lines starting with `#`,
and parse the first line containing the image name. -/
def get_image_checksum_from_checksums_buffer
    (name : String) (checksums : Option String) (filename : String) : CheckSums :=
  match checksums with
  | some buffer =>
    let rec go : List String → CheckSums
      | [] => .None
      | line :: rest =>
        if !(line = "") && !(line.data.head? = some '#') then
          if strContains line name then build_checksums_from_line line filename
          else go rest
        else go rest
    go (buffer.splitOn "\n")
  | none => .None

/-- `CheckSums`' `fmt::Display` (src/checksums.rs): `writeln!` appends a
newline, so `None` prints as a bare newline and a hash prints as the hex
string followed by a newline. -/
def CheckSums.displayString : CheckSums → String
  | .None => "\n"
  | .Sha256 chk => chk ++ "\n"
  | .Sha512 chk => chk ++ "\n"

/-- `are_all_checksums_in_one_file` (src/checksums.rs and the identical
copy in src/website.rs): recognized aggregate checksum file names. -/
def are_all_checksums_in_one_file (inner : String) : Bool :=
  strContains inner "-CHECKSUM" || inner = "CHECKSUM" ||
    inner = "SHA256SUMS" || inner = "SHA512SUMS"

/-- `is_a_checksum_file` (src/website.rs): aggregate checksum name, or a
name matched by `\.(SHA1|MD5|SHA256)SUM$`. -/
def is_a_checksum_file (inner : String) : Bool :=
  are_all_checksums_in_one_file inner ||
  ".SHA1SUM".data.isSuffixOf inner.data ||
  ".MD5SUM".data.isSuffixOf inner.data ||
  ".SHA256SUM".data.isSuffixOf inner.data

/-! ### website.rs : ImageSelector -/

/-- `CheckSumType` (src/website.rs). -/
inductive CheckSumType where
  | OneFile (filename : String)
  | EveryFile
  | Unknown
deriving DecidableEq, Repr

/-- `image_list.rs`'s `CloudImage { url, checksum }`, the variant consumed
by src/website.rs. -/
structure CloudImageIL where
  url : String
  checksum : CheckSums
deriving DecidableEq, Repr

/-- Accumulator of `WebSite::guess_checksum_type`'s counting loop:
`everyfile` and `onefile` are Rust `u16` counters (wrapping), `filename`
remembers the last aggregate-checksum file name seen. -/
structure GuessAcc where
  everyfile : Nat
  onefile : Nat
  filename : String
deriving DecidableEq, Repr

/-- One iteration of the loop in `WebSite::guess_checksum_type`
(src/website.rs): bump `everyfile` when the entry contains `.SHA256SUM`,
and bump `onefile` (remembering the name) when the entry is an aggregate
checksum file name. -/
def guessStep (acc : GuessAcc) (inner : String) : GuessAcc :=
  let acc1 :=
    if strContains inner ".SHA256SUM" then
      { acc with everyfile := (acc.everyfile + 1) % 65536 }
    else acc
  if are_all_checksums_in_one_file inner then
    { acc1 with filename := inner, onefile := (acc1.onefile + 1) % 65536 }
  else acc1

/-- `WebSite::guess_checksum_type` (src/website.rs) over the inner-htmls
of all anchors of the page: `OneFile` when the (wrapping) aggregate
counter ends at exactly 1, else `EveryFile` when the `.SHA256SUM` counter
is at least 1, else `Unknown`. -/
def guess_checksum_type (entries : List String) : CheckSumType :=
  let acc := entries.foldl guessStep ⟨0, 0, ""⟩
  if acc.onefile = 1 then .OneFile acc.filename
  else if 1 ≤ acc.everyfile then .EveryFile
  else .Unknown

/-- `WebSite::filter_element` (src/website.rs): keep an entry when it
matches `image_name_filter`, is not a checksum file, and matches none of
the `image_name_cleanse` regexes. -/
def filter_element (site : WebSite) (inner : String) : Bool :=
  let is_filtered := site.image_name_filter inner && !is_a_checksum_file inner
  if is_filtered then
    match site.image_name_cleanse with
    | some cleanse_filters => !(cleanse_filters.any (fun f => f inner))
    | none => true
  else false

/-- The opaque collaborators of the pipeline: `pageLinks url` is the list
of anchor inner-htmls of the page at `url` (`none`: fetch failed),
`body url` the raw body of `url` (`none`: fetch failed), `inDbIL` the
history-store membership test used by src/website.rs, `fs` the bytes of a
file on disk (`none`: cannot be opened), `sha256hex`/`sha512hex` the
lowercase-hex digests of the sha2 crate, and `parseUrl` reqwest's
`Url::parse` (`none`: invalid URL). -/
structure Env where
  pageLinks : String → Option (List String)
  body : String → Option String
  inDbIL : CloudImageIL → Bool
  fs : String → Option (List Nat)
  sha256hex : List Nat → String
  sha512hex : List Nat → String
  parseUrl : String → Option String

/-- The image-construction part of
`WebSite::add_images_from_url_to_images_list` (src/website.rs): the list
of `CloudImage`s pushed into `images_url_list` before sorting — all
entries kept by `filter_element`, paired with a checksum obtained
according to `guess_checksum_type`. -/
def collectImages (site : WebSite) (url : String) (env : Env) : List CloudImageIL :=
  match env.pageLinks url with
  | none => []
  | some entries =>
    let image_list := entries.filter (filter_element site)
    match guess_checksum_type entries with
    | .OneFile filename =>
      let checksums := env.body (url ++ "/" ++ filename)
      image_list.map (fun image_name =>
        ⟨url ++ "/" ++ image_name,
         get_image_checksum_from_checksums_buffer image_name checksums filename⟩)
    | .EveryFile =>
      image_list.map (fun image_name =>
        let u := url ++ "/" ++ image_name
        ⟨u, get_image_checksum_from_checksums_buffer image_name
              (env.body (u ++ ".SHA256SUM")) u⟩)
    | .Unknown =>
      image_list.map (fun image_name => ⟨url ++ "/" ++ image_name, CheckSums.None⟩)

/-- `WebSite::add_images_from_url_to_images_list` (src/website.rs):
collect the images, sort by `compare_dates_in_names` (i.e.
`compare_str_by_date` on the urls), keep only the last element, and drop
it if the history store already has it. -/
def add_images_from_url_to_images_list (site : WebSite) (url : String) (env : Env) :
    List CloudImageIL :=
  let sorted := rustSortBy (fun a b => compare_str_by_date a.url b.url)
    (collectImages site url env)
  let kept := only_keep_last_element sorted
  match kept.head? with
  | some cloud_image => if env.inDbIL cloud_image then [] else kept
  | none => kept

/-! ### cloud_image.rs / download.rs / image_history.rs -/

/-- chrono `NaiveDateTime`, reduced to the calendar/clock fields the
formatting strings `%Y%m%d` and `%Y-%m-%d %H:%M:%S` consume. -/
structure NDateTime where
  year : Nat
  month : Nat
  day : Nat
  hour : Nat
  minute : Nat
  second : Nat
deriving DecidableEq, Repr

/-- Zero-pad to two digits (chrono `%m`, `%d`, `%H`, `%M`, `%S`). -/
def pad2 (n : Nat) : String :=
  if n < 10 then "0" ++ toString n else toString n

/-- Zero-pad to four digits (chrono `%Y` for the years in range). -/
def pad4 (n : Nat) : String :=
  if n < 10 then "000" ++ toString n
  else if n < 100 then "00" ++ toString n
  else if n < 1000 then "0" ++ toString n
  else toString n

/-- chrono format `%Y%m%d` as used by `get_filename_destination`. -/
def fmtYMD (d : NDateTime) : String :=
  pad4 d.year ++ pad2 d.month ++ pad2 d.day

/-- chrono format `%Y-%m-%d %H:%M:%S` as used by src/image_history.rs. -/
def fmtFull (d : NDateTime) : String :=
  pad4 d.year ++ "-" ++ pad2 d.month ++ "-" ++ pad2 d.day ++ " " ++
    pad2 d.hour ++ ":" ++ pad2 d.minute ++ ":" ++ pad2 d.second

/-- `cloud_image.rs`'s `CloudImage { url, name, checksum, date }`, the
variant consumed by src/download.rs and src/image_history.rs. -/
structure CloudImage where
  url : String
  name : String
  checksum : CheckSums
  date : NDateTime
deriving DecidableEq, Repr

/-- Split at the last occurrence of `c`, preferring a split found in the
tail (Rust `str::rsplit_once`). -/
def lastSplit (c : Char) : List Char → Option (List Char × List Char)
  | [] => none
  | x :: xs =>
    match lastSplit c xs with
    | some (l, r) => some (x :: l, r)
    | none => if x = c then some ([], xs) else none

/-- Rust `str::rsplit_once(c)`: the parts before and after the last
occurrence of `c`, if any. -/
def rsplit_once (s : String) (c : Char) : Option (String × String) :=
  (lastSplit c s.data).map (fun p => (String.mk p.1, String.mk p.2))

/-- `get_filename_destination` (src/download.rs): when `normalize` is set
and the name contains a `.`, insert `-YYYYMMDD` before the final
extension; join the destination directory and the (possibly normalized)
name.  (`PathBuf::join` embedded as `/`-concatenation, for a destination
without a trailing slash; the `to_str` UTF-8 check cannot fail on the
`String` model, so the `None` branch of the source is unreachable
here.) -/
def get_filename_destination (image_name : String) (file_destination : String)
    (normalize : Bool) (image_date : NDateTime) : Option String :=
  let normalized_image_name :=
    match normalize, rsplit_once image_name '.' with
    | true, some (first_part, last_part) =>
      first_part ++ "-" ++ fmtYMD image_date ++ "." ++ last_part
    | _, _ => image_name
  some (file_destination ++ "/" ++ normalized_image_name)

/-- `verify_file` (src/cloud_image.rs) with the file system and the sha2
hashing abstracted into `env`: opening the file fails → `Err`; no
checksum → `Ok(None)`; otherwise hash the contents and compare with the
expected lowercase hex digest. -/
def verify_file (env : Env) (filename : String) (checksum : CheckSums) :
    Except Unit (Option Bool) :=
  match env.fs filename with
  | none => .error ()
  | some bytes =>
    match checksum with
    | .None => .ok none
    | .Sha256 hash => .ok (some (env.sha256hex bytes = hash))
    | .Sha512 hash => .ok (some (env.sha512hex bytes = hash))

/-- `CloudImage::verify` (src/cloud_image.rs): resolve the destination
filename, verify the file; a missing checksum (`Ok(None)`) is logged as
"not verified" but still returns `true`; an I/O error returns
`false`. -/
def CloudImage.verify (img : CloudImage) (destination : String) (normalize : Bool)
    (env : Env) : Bool :=
  match get_filename_destination img.name destination normalize img.date with
  | some filename =>
    match verify_file env filename img.checksum with
    | .ok (some success) => success
    | .ok none => true
    | .error _ => false
  | none => false

/-- One row of the `cid_images` sqlite table (src/image_history.rs). -/
structure HistRow where
  name : String
  checksum : String
  date : String
deriving DecidableEq, Repr

/-- The sqlite connection of `DbImageHistory` (src/image_history.rs):
the stored rows plus flags selecting whether `prepare` or `query` fail
(any sqlite error is collapsed into these two failure points). -/
structure DbImageHistory where
  rows : List HistRow
  prepareFails : Bool
  queryFails : Bool

/-- `DbImageHistory::is_image_in_db` (src/image_history.rs): format the
checksum via `Display` and the date via `%Y-%m-%d %H:%M:%S`, run the
`SELECT ... WHERE name=?1 AND checksum=?2 AND date=?3`; a `prepare` error
propagates as `Err`, a `query` error is logged and falls through to
`Ok(false)`, and the first returned row is compared field by field. -/
def is_image_in_db (db : DbImageHistory) (cloud_image : Option CloudImage) :
    Except Unit Bool :=
  match cloud_image with
  | none => .ok false
  | some img =>
    let image_name := img.name
    let checksum := img.checksum.displayString
    let date := fmtFull img.date
    if db.prepareFails then .error ()
    else if db.queryFails then .ok false
    else
      match db.rows.filter
          (fun r => r.name = image_name && r.checksum = checksum && r.date = date) with
      | [] => .ok false
      | r :: _ => .ok (image_name = r.name && checksum = r.checksum && date = r.date)

/-- `CloudImage::is_in_db` (src/cloud_image.rs):
`db.is_image_in_db(Some(self)).unwrap_or_default()` — an `Err` degrades
to `false`. -/
def CloudImage.is_in_db (img : CloudImage) (db : DbImageHistory) : Bool :=
  match is_image_in_db db (some img) with
  | .ok in_db => in_db
  | .error _ => false

/-- `DbImageHistory::save_image_in_db` (src/image_history.rs): insert the
`(name, Display checksum, %Y-%m-%d %H:%M:%S date)` row; a duplicate
violates the unique index `index_ncd`, the error is logged and the table
is unchanged. -/
def save_image_in_db (db : DbImageHistory) (cloud_image : CloudImage) :
    DbImageHistory :=
  let row : HistRow :=
    ⟨cloud_image.name, cloud_image.checksum.displayString, fmtFull cloud_image.date⟩
  if row ∈ db.rows then db
  else { db with rows := db.rows ++ [row] }

/-- trauma `Status` (the payload strings of `Fail`/`Skipped` are only
logged and are dropped here). -/
inductive Status where
  | Success
  | Fail
  | Skipped
  | NotStarted
deriving DecidableEq, Repr

/-- trauma `Summary`: the submitted download item (url, destination
filename) and its final status. -/
structure Summary where
  url : String
  filename : String
  status : Status
deriving DecidableEq, Repr

/-- The website data consumed by src/download.rs: the destination
directory and the normalize flag (`WebSite::get_normalize`; the accessor
itself belongs to the revision of website.rs not in this snapshot, so the
flag is carried directly). -/
structure WebSiteDl where
  destination : String
  normalize : Bool
deriving DecidableEq, Repr

/-- `WSImageList` as consumed by `verify_downloaded_file`
(src/download.rs): a website and its selected images. -/
structure WSImageList where
  website : WebSiteDl
  images_list : List CloudImage
deriving DecidableEq, Repr

/-- `image_has_been_downloaded` (src/download.rs): walk the summaries; on
the summary whose filename and parsed url match this image, `Success`
keeps it, `Fail`/`NotStarted` drop it, `Skipped` keeps it only when
`verify_skipped` is set; if the filename or url cannot be formed the
summary is skipped; no matching summary means not downloaded. -/
def image_has_been_downloaded (downloaded_summary : List Summary)
    (cloud_image : CloudImage) (destination : String) (verify_skipped : Bool)
    (normalize : Bool) (env : Env) : Bool :=
  match downloaded_summary with
  | [] => false
  | summary :: rest =>
    match get_filename_destination cloud_image.name destination normalize
        cloud_image.date with
    | some filename =>
      match env.parseUrl cloud_image.url with
      | some url =>
        if summary.filename = filename && summary.url = url then
          match summary.status with
          | .Success => true
          | .Fail => false
          | .NotStarted => false
          | .Skipped => verify_skipped
        else
          image_has_been_downloaded rest cloud_image destination verify_skipped
            normalize env
      | none =>
        image_has_been_downloaded rest cloud_image destination verify_skipped
          normalize env
    | none =>
      image_has_been_downloaded rest cloud_image destination verify_skipped
        normalize env

/-- `verify_downloaded_file` (src/download.rs), reduced to its
history-store effect: the list of images passed to
`db.save_image_in_db`, in order.  An image is verified when
`image_has_been_downloaded` accepts it, and it is saved exactly when
`CloudImage::verify` returns `true` for it. -/
def verify_downloaded_file (all_ws_image_lists : List WSImageList)
    (downloaded_summary : List Summary) (verify_skipped : Bool) (env : Env) :
    List CloudImage :=
  all_ws_image_lists.flatMap (fun ws_image =>
    ws_image.images_list.filterMap (fun cloud_image =>
      if image_has_been_downloaded downloaded_summary cloud_image
          ws_image.website.destination verify_skipped ws_image.website.normalize env then
        if cloud_image.verify ws_image.website.destination
            ws_image.website.normalize env then
          some cloud_image
        else none
      else none))

/-! ### Definitions taken from the words of the specification
(used only to compare the claims against the embedded code) -/

/-- The resolver asserted by the specification (spec §4.4 / claim C2):
for each version, select the newest dated subdirectory listed at
`{base_url}/{version}` first, and only then append each
`after_version_url` segment to the selected URL. -/
def specResolverOrder (site : WebSite) (listing : String → List String) : List String :=
  site.version_list.flatMap (fun version =>
    let url := site.base_url ++ "/" ++ version
    let selected :=
      match (get_list_of_dates (listing url)).head? with
      | some date => url ++ "/" ++ date
      | none => url
    match site.after_version_url with
    | some after => after.map (fun a => selected ++ "/" ++ a)
    | none => [selected])

/-- The numeric version-directory pattern asserted by the specification
(spec §4.4.2b / claim C3): full match of `^\d\d+/$`, i.e. at least two
digits followed by a final `/`. -/
def specIsNumericDir (inner : String) : Bool :=
  let cs := inner.data
  3 ≤ cs.length && cs.getLast? = some '/' && cs.dropLast.all Char.isDigit

/-- A directory entry as exposed by the spec's DirectoryClient (spec
§4.3): a display name and a modification timestamp. -/
structure DirEntry where
  name : String
  mtime : Nat
deriving DecidableEq, Repr

/-- The selection rule asserted by claim C4: sort the entries by
modification timestamp descending and keep the first. -/
def specNewestByMtime (entries : List DirEntry) : Option String :=
  ((rustSortBy (fun a b => compare b.mtime a.mtime) entries).head?).map DirEntry.name

/-- The capture asserted by claim C5: the first contiguous run of `k`
lowercase-hex digits of the line (the window at the least viable
start). -/
def specFirstHexRun (k : Nat) (s : String) : Option String :=
  let cs := s.data
  match ((List.range (cs.length + 1)).filter (fun p => okWindow k cs p)).head? with
  | some p => some (String.mk ((cs.drop p).take k))
  | none => none

/-! ### Concrete instances used by counterexamples and witnesses -/

/-- Environment for the C1 scenario: every file opens (with empty
contents) and `Url::parse` is the identity. -/
def c1env : Env :=
  { pageLinks := fun _ => none
    body := fun _ => none
    inDbIL := fun _ => false
    fs := fun _ => some []
    sha256hex := fun _ => ""
    sha512hex := fun _ => ""
    parseUrl := fun u => some u }

/-- A checksum-less image, downloaded successfully. -/
def c1img : CloudImage :=
  ⟨"http://x/img.qcow2", "img.qcow2", CheckSums.None, ⟨2025, 7, 10, 0, 0, 0⟩⟩

/-- One website with the single image `c1img`. -/
def c1ws : WSImageList := ⟨⟨"/dst", false⟩, [c1img]⟩

/-- The downloader summary reporting `c1img` as successfully downloaded
to its destination. -/
def c1sum : Summary := ⟨"http://x/img.qcow2", "/dst/img.qcow2", Status.Success⟩

/-- Site with one version `V` and one after-version segment `i`. -/
def c2site : WebSite := ⟨"s", ["V"], "B", some ["i"], fun _ => true, none, "/dst"⟩

/-- Listings: `B/V` shows the dated directory `20240101/`, while
`B/V/i` shows `20240102/`. -/
def c2listing : String → List String := fun u =>
  if u = "B/V" then ["20240101/"]
  else if u = "B/V/i" then ["20240102/"]
  else []

/-- Site with one version `V` and no after-version segments. -/
def c3site : WebSite := ⟨"s", ["V"], "B", none, fun _ => true, none, "/dst"⟩

/-- Listing of `B/V`: only numeric version directories. -/
def c3listing : String → List String := fun u =>
  if u = "B/V" then ["40/", "35/"] else []

/-- Site whose image-name filter accepts everything. -/
def c4site : WebSite := ⟨"s", ["V"], "B", none, fun _ => true, none, "/dst"⟩

/-- Two images: the name-date order and the modification-timestamp order
disagree. -/
def c4entries : List DirEntry :=
  [⟨"a-20240102.qcow2", 50⟩, ⟨"b-20240101.qcow2", 100⟩]

/-- Environment for C4: the leaf page `U` lists the names of
`c4entries`. -/
def c4env : Env :=
  { pageLinks := fun u => if u = "U" then some (c4entries.map DirEntry.name) else none
    body := fun _ => none
    inDbIL := fun _ => false
    fs := fun _ => none
    sha256hex := fun _ => ""
    sha512hex := fun _ => ""
    parseUrl := fun _ => none }

/-- A SHA512-classified checksum line containing a run of 129 hex
characters (an `a` followed by 128 zeros), so that the first and the
last 128-character hex windows differ. -/
def c5line : String := "SHA512 a" ++ String.mk (List.replicate 128 '0')

/-- 65537 aggregate checksum names: one more than the `u16` counter of
`guess_checksum_type` can hold. -/
def c6entries : List String := List.replicate 65537 "CHECKSUM"

/-- Two file names for the C6 witness: one aggregate checksum file and
one image. -/
def c6wEntries : List String := ["SHA256SUMS", "foo.qcow2"]

/-- The date 2025-07-10 of the normalize scenario of spec §8. -/
def c7date : NDateTime := ⟨2025, 7, 10, 0, 0, 0⟩

/-- An image with a Sha256 checksum, for the history-store claims. -/
def c8img : CloudImage := ⟨"u", "n", CheckSums.Sha256 "aa", ⟨2025, 1, 2, 3, 4, 5⟩⟩

/-- A history store whose queries fail. -/
def c8dbErr : DbImageHistory := ⟨[], false, true⟩

/-- The history row corresponding to `c8img` (`Display` appends a
newline to the checksum). -/
def c8row : HistRow := ⟨"n", "aa" ++ "\n", "2025-01-02 03:04:05"⟩

/-- A healthy history store holding exactly `c8row`. -/
def c8dbOk : DbImageHistory := ⟨[c8row], false, false⟩

/-- A checksum-less image for the round-trip claim. -/
def c10img : CloudImage := ⟨"u2", "n2", CheckSums.None, ⟨2024, 12, 31, 23, 59, 58⟩⟩

/-- An empty, healthy history store. -/
def c10db : DbImageHistory := ⟨[], false, false⟩

/-! ### Helper lemmas: the comparison machinery -/

theorem charsCmp_self : ∀ l : List Char, charsCmp l l = .eq
  | [] => rfl
  | a :: as => by
    simp only [charsCmp, lt_irrefl, if_false]
    exact charsCmp_self as

theorem charsCmp_swap : ∀ a b : List Char, charsCmp b a = (charsCmp a b).swap
  | [], [] => rfl
  | [], _ :: _ => rfl
  | _ :: _, [] => rfl
  | a :: as, b :: bs => by
    simp only [charsCmp]
    rcases lt_trichotomy a b with h | h | h
    · simp only [if_pos h, if_neg (lt_asymm h)]
      rfl
    · subst h
      simp only [if_neg (lt_irrefl a)]
      exact charsCmp_swap as bs
    · simp only [if_pos h, if_neg (lt_asymm h)]
      rfl

theorem charsCmp_nil_ne_gt : ∀ c : List Char, charsCmp [] c ≠ .gt
  | [] => by simp [charsCmp]
  | _ :: _ => by simp [charsCmp]

theorem charsCmp_le_trans :
    ∀ a b c : List Char, charsCmp a b ≠ .gt → charsCmp b c ≠ .gt → charsCmp a c ≠ .gt
  | [], _, c, _, _ => charsCmp_nil_ne_gt c
  | _ :: _, [], _, h1, _ => absurd rfl h1
  | _ :: _, _ :: _, [], _, h2 => absurd rfl h2
  | x :: xs, y :: ys, z :: zs, h1, h2 => by
    simp only [charsCmp] at h1 h2 ⊢
    rcases lt_trichotomy x y with hxy | hxy | hxy
    · rcases lt_trichotomy y z with hyz | hyz | hyz
      · rw [if_pos (lt_trans hxy hyz)]
        simp
      · subst hyz
        rw [if_pos hxy]
        simp
      · rw [if_neg (lt_asymm hyz), if_pos hyz] at h2
        exact absurd rfl h2
    · subst hxy
      rcases lt_trichotomy x z with hyz | hyz | hyz
      · rw [if_pos hyz]
        simp
      · subst hyz
        rw [if_neg (lt_irrefl x), if_neg (lt_irrefl x)] at h1 h2 ⊢
        exact charsCmp_le_trans xs ys zs h1 h2
      · rw [if_neg (lt_asymm hyz), if_pos hyz] at h2
        exact absurd rfl h2
    · rw [if_neg (lt_asymm hxy), if_pos hxy] at h1
      exact absurd rfl h1

theorem compare_str_by_date_eq_key (a b : String) :
    compare_str_by_date a b = charsCmp (dateSortKey a) (dateSortKey b) := by
  unfold compare_str_by_date dateSortKey
  cases ha : get_date_from_string a <;> cases hb : get_date_from_string b <;>
    simp [charsCmp]

/-- The last element of the embedded `sort_by` is maximal, for any
comparison that is swap-consistent and transitive on its non-`gt`
part. -/
theorem rustSortBy_getLast_max {α : Type} (cmp : α → α → Ordering)
    (hswap : ∀ a b, cmp b a = (cmp a b).swap)
    (htrans : ∀ a b c, cmp a b ≠ .gt → cmp b c ≠ .gt → cmp a c ≠ .gt)
    {l : List α} {x m : α} (hx : x ∈ l)
    (hm : (rustSortBy cmp l).getLast? = some m) : cmp x m ≠ .gt := by
  have hrefl : ∀ a, cmp a a ≠ .gt := by
    intro a h
    have := hswap a a
    rw [h] at this
    exact Ordering.noConfusion this
  haveI : IsTotal α (fun a b => cmp a b ≠ .gt) := by
    constructor
    intro a b
    by_cases h : cmp a b = .gt
    · right
      show cmp b a ≠ .gt
      rw [hswap a b, h]
      simp [Ordering.swap]
    · left
      exact h
  haveI : IsTrans α (fun a b => cmp a b ≠ .gt) := ⟨htrans⟩
  have hsorted := List.sorted_insertionSort (fun a b => cmp a b ≠ .gt) l
  have hx2 : x ∈ List.insertionSort (fun a b => cmp a b ≠ .gt) l :=
    (List.mem_insertionSort _).mpr hx
  unfold rustSortBy at hm
  revert hx2 hm
  generalize List.insertionSort (fun a b => cmp a b ≠ .gt) l = s at hsorted
  induction s with
  | nil =>
    intro hlast hmem
    simp at hmem
  | cons a t ih =>
    intro hlast hmem
    cases t with
    | nil =>
      have ha : (a :: ([] : List α)).getLast? = some a := rfl
      rw [ha, Option.some.injEq] at hlast
      simp only [List.mem_singleton] at hmem
      subst hlast
      subst hmem
      exact hrefl x
    | cons b t2 =>
      rw [List.getLast?_cons_cons] at hlast
      rcases List.mem_cons.mp hmem with rfl | hx3
      · exact List.rel_of_sorted_cons hsorted m (List.mem_of_mem_getLast? hlast)
      · exact ih hsorted.of_cons hlast hx3

theorem only_keep_last_length {α : Type} (l : List α) :
    (only_keep_last_element l).length ≤ 1 := by
  unfold only_keep_last_element
  cases l.getLast? <;> simp

/-! ### Claim C9 -/

/-- C9: for every leaf URL, the image selector emits at most one
`CloudImage` — the list produced by
`add_images_from_url_to_images_list` (after filtering, sorting, and the
history-store check) always has length zero or one. -/
theorem c9_at_most_one_image_per_leaf (site : WebSite) (url : String) (env : Env) :
    (add_images_from_url_to_images_list site url env).length ≤ 1 := by
  unfold add_images_from_url_to_images_list
  dsimp only
  have hk := only_keep_last_length (rustSortBy
    (fun a b : CloudImageIL => compare_str_by_date a.url b.url)
    (collectImages site url env))
  cases hh : (only_keep_last_element (rustSortBy
      (fun a b : CloudImageIL => compare_str_by_date a.url b.url)
      (collectImages site url env))).head? with
  | none => simpa [hh] using hk
  | some ci =>
    dsimp only
    by_cases hdb : env.inDbIL ci = true
    · simp [hdb]
    · simp [hdb, hk]

/-! ### Claim C4 -/

theorem compare_str_by_date_swap (a b : String) :
    compare_str_by_date b a = (compare_str_by_date a b).swap := by
  rw [compare_str_by_date_eq_key, compare_str_by_date_eq_key]
  exact charsCmp_swap _ _

theorem compare_str_by_date_le_trans (a b c : String)
    (h1 : compare_str_by_date a b ≠ .gt) (h2 : compare_str_by_date b c ≠ .gt) :
    compare_str_by_date a c ≠ .gt := by
  rw [compare_str_by_date_eq_key] at h1 h2 ⊢
  exact charsCmp_le_trans _ _ _ h1 h2

/-- C4 (amended): the image kept by the selector for a leaf URL is
maximal among all collected images with respect to
`compare_str_by_date` applied to the image urls — i.e. the newest by the
`YYYYMMDD` date embedded in the name (entries without a date sort
lowest, ties fall back to plain string order); modification timestamps
play no role. -/
theorem c4_selected_image_is_max_by_name_date (site : WebSite) (url : String)
    (env : Env) (img x : CloudImageIL)
    (himg : img ∈ add_images_from_url_to_images_list site url env)
    (hx : x ∈ collectImages site url env) :
    compare_str_by_date x.url img.url ≠ .gt := by
  have hswap : ∀ a b : CloudImageIL,
      (fun a b : CloudImageIL => compare_str_by_date a.url b.url) b a =
        ((fun a b : CloudImageIL => compare_str_by_date a.url b.url) a b).swap := by
    intro a b
    exact compare_str_by_date_swap a.url b.url
  have htrans : ∀ a b c : CloudImageIL,
      compare_str_by_date a.url b.url ≠ .gt → compare_str_by_date b.url c.url ≠ .gt →
      compare_str_by_date a.url c.url ≠ .gt := by
    intro a b c h1 h2
    exact compare_str_by_date_le_trans _ _ _ h1 h2
  unfold add_images_from_url_to_images_list at himg
  dsimp only at himg
  cases hlast : (rustSortBy (fun a b : CloudImageIL => compare_str_by_date a.url b.url)
      (collectImages site url env)).getLast? with
  | none =>
    simp only [only_keep_last_element, hlast] at himg
    simp at himg
  | some m =>
    simp only [only_keep_last_element, hlast] at himg
    by_cases hdb : env.inDbIL m = true
    · simp [hdb] at himg
    · simp [hdb] at himg
      subst himg
      exact rustSortBy_getLast_max
        (fun a b : CloudImageIL => compare_str_by_date a.url b.url) hswap htrans hx hlast

/-- C4 (counterexample): with two images whose order by
modification timestamp is the opposite of their order by the date in the
name, the selector keeps the one with the newer name-date, not the entry
with the greatest modification timestamp. -/
theorem c4_counterexample :
    add_images_from_url_to_images_list c4site "U" c4env =
      [⟨"U/a-20240102.qcow2", CheckSums.None⟩] ∧
    c4entries.map DirEntry.name = ["a-20240102.qcow2", "b-20240101.qcow2"] ∧
    specNewestByMtime c4entries = some "b-20240101.qcow2" ∧
    ("U/a-20240102.qcow2" : String) ≠ "U/b-20240101.qcow2" := by
  decide

/-- Witness for `c4_selected_image_is_max_by_name_date` at the concrete
C4 scenario. -/
theorem c4_selected_image_is_max_by_name_date_witness :
    compare_str_by_date "U/b-20240101.qcow2" "U/a-20240102.qcow2" ≠ .gt :=
  c4_selected_image_is_max_by_name_date c4site "U" c4env
    ⟨"U/a-20240102.qcow2", CheckSums.None⟩ ⟨"U/b-20240101.qcow2", CheckSums.None⟩
    (by decide) (by decide)

/-! ### Claims C2 and C3 -/

theorem get_list_of_dates_nil (entries : List String)
    (hall : ∀ e ∈ entries, filter_dates e = false) : get_list_of_dates entries = [] := by
  unfold get_list_of_dates
  have hfil : entries.filter filter_dates = [] := by
    rw [List.filter_eq_nil_iff]
    intro a ha
    simp [hall a ha]
  rw [hfil]
  rfl

/-- C2 (amended): for a site with `after_version_url` segments the
resolver appends each segment to `{base_url}/{version}` FIRST, and only
then selects the newest dated subdirectory — listed at
`{base_url}/{version}/{after_version}` — and appends it, so each leaf
URL has the form `{base_url}/{version}/{after_version}` or
`{base_url}/{version}/{after_version}/{selected-date}`. -/
theorem c2_resolver_appends_after_version_before_date_descent
    (site : WebSite) (listing : String → List String) (after : List String)
    (h : site.after_version_url = some after) :
    generate_url_list site listing =
      site.version_list.flatMap (fun version =>
        after.flatMap (fun a =>
          if (get_list_of_dates (listing
              (site.base_url ++ "/" ++ version ++ "/" ++ a))).isEmpty
          then [site.base_url ++ "/" ++ version ++ "/" ++ a]
          else (get_list_of_dates (listing
              (site.base_url ++ "/" ++ version ++ "/" ++ a))).map
            (fun date => site.base_url ++ "/" ++ version ++ "/" ++ a ++ "/" ++ date))) := by
  unfold generate_url_list
  rw [h]
  simp only [List.flatMap_assoc, List.flatMap_map]

/-- C2 (counterexample): the subdirectory listing is taken at
`{base_url}/{version}/{after_version}`, not at `{base_url}/{version}`,
and the selected date is appended after the `after_version` segment:
the resolver produces `B/V/i/20240102`, not the claim's
`B/V/20240101/i`. -/
theorem c2_counterexample :
    generate_url_list c2site c2listing = ["B/V/i/20240102"] ∧
    specResolverOrder c2site c2listing = ["B/V/20240101/i"] ∧
    (["B/V/i/20240102"] : List String) ≠ ["B/V/20240101/i"] := by
  decide

/-- Witness for `c2_resolver_appends_after_version_before_date_descent`
at the concrete C2 site. -/
theorem c2_resolver_appends_after_version_before_date_descent_witness :
    generate_url_list c2site c2listing = ["B/V/i/20240102"] := by
  have h := c2_resolver_appends_after_version_before_date_descent c2site c2listing
    ["i"] rfl
  rw [h]
  decide

/-- C3 (amended): the resolver has no numeric-directory branch — a
subdirectory is selected only when it matches the date regex
`\d{8}(?:-\d{4})?/$`; when no listed entry matches it, the bare
`{base_url}/{version}` is used even if numeric version directories are
listed. -/
theorem c3_no_numeric_directory_fallback (site : WebSite)
    (listing : String → List String) (h : site.after_version_url = none)
    (hnod : ∀ v ∈ site.version_list,
      ∀ e ∈ listing (site.base_url ++ "/" ++ v), filter_dates e = false) :
    generate_url_list site listing =
      site.version_list.map (fun v => site.base_url ++ "/" ++ v) := by
  rcases site with ⟨n, vl, b, av, fil, cl, dst⟩
  dsimp only at h hnod ⊢
  subst h
  unfold generate_url_list
  dsimp only
  induction vl with
  | nil => rfl
  | cons v tl ih =>
    simp only [List.flatMap_cons, List.flatMap_append, List.flatMap_singleton,
      List.map_cons]
    rw [get_list_of_dates_nil (listing (b ++ "/" ++ v)) (hnod v (by simp))]
    simp only [List.isEmpty_nil, if_true]
    rw [ih (fun w hw e he => hnod w (by simp [hw]) e he)]
    rfl

/-- C3 (counterexample): a listing with the numeric version directories
`40/` and `35/` and no dated directory.  The claim asserts the resolver
picks `40` and forms `B/V/40`; the code has no numeric branch and uses
the bare `B/V`. -/
theorem c3_counterexample :
    generate_url_list c3site c3listing = ["B/V"] ∧
    (c3listing "B/V").filter filter_dates = [] ∧
    (c3listing "B/V").filter specIsNumericDir = ["40/", "35/"] ∧
    (["B/V"] : List String) ≠ ["B/V/40"] := by
  decide

/-- Witness for `c3_no_numeric_directory_fallback` at the concrete C3
site. -/
theorem c3_no_numeric_directory_fallback_witness :
    generate_url_list c3site c3listing =
      c3site.version_list.map (fun v => c3site.base_url ++ "/" ++ v) :=
  c3_no_numeric_directory_fallback c3site c3listing rfl (by decide)

/-! ### Claim C5 -/

/-- C5 (amended): when a SHA512-classified line contains exactly one
128-character window of lowercase-hex digits — the well-formed case of
one 128-digit hash — the parser returns `Sha512` of that window; the
SHA256 case is analogous with 64.  (In general the greedy `.*` prefix of
the regex makes the capture the LAST viable window, not the first.) -/
theorem c5_parser_returns_unique_hex_window :
    (∀ (line fname : String) (p : Nat),
      (strContains fname "SHA512SUMS" || strContains line "SHA512") = true →
      (List.range (line.data.length + 1)).filter (fun q => okWindow 128 line.data q) =
        [p] →
      build_checksums_from_line line fname =
        .Sha512 (String.mk ((line.data.drop p).take 128))) ∧
    (∀ (line fname : String) (p : Nat),
      (strContains fname "SHA512SUMS" || strContains line "SHA512") = false →
      (strContains fname "SHA256SUMS" || strContains line "SHA256") = true →
      (List.range (line.data.length + 1)).filter (fun q => okWindow 64 line.data q) =
        [p] →
      build_checksums_from_line line fname =
        .Sha256 (String.mk ((line.data.drop p).take 64))) := by
  constructor
  · intro line fname p h512 huniq
    unfold build_checksums_from_line regexHexCapture
    rw [h512]
    dsimp only
    rw [huniq]
    rfl
  · intro line fname p h512 h256 huniq
    unfold build_checksums_from_line regexHexCapture
    rw [h512, h256]
    dsimp only
    rw [huniq]
    rfl

set_option maxRecDepth 8192 in
/-- C5 (counterexample): a SHA512 line whose hex run has 129 characters
(`a` followed by 128 zeros).  The first contiguous 128-hex window starts
at the `a`; the code captures the last window (the 128 zeros). -/
theorem c5_counterexample :
    build_checksums_from_line c5line "f" =
      .Sha512 (String.mk (List.replicate 128 '0')) ∧
    specFirstHexRun 128 c5line = some (String.mk ('a' :: List.replicate 127 '0')) ∧
    String.mk (List.replicate 128 '0') ≠ String.mk ('a' :: List.replicate 127 '0') := by
  decide

set_option maxRecDepth 8192 in
/-- Witness for `c5_parser_returns_unique_hex_window` on a well-formed
line consisting of exactly 128 hex digits. -/
theorem c5_parser_returns_unique_hex_window_witness :
    build_checksums_from_line (String.mk (List.replicate 128 'a')) "SHA512SUMS" =
      .Sha512 (String.mk (((String.mk (List.replicate 128 'a')).data.drop 0).take 128)) :=
  c5_parser_returns_unique_hex_window.1 (String.mk (List.replicate 128 'a'))
    "SHA512SUMS" 0 (by decide) (by decide)

/-! ### Claim C6 -/

theorem guessStep_everyfile (a : GuessAcc) (e : String) :
    (guessStep a e).everyfile =
      if strContains e ".SHA256SUM" then (a.everyfile + 1) % 65536
      else a.everyfile := by
  unfold guessStep
  by_cases h1 : strContains e ".SHA256SUM" <;>
    by_cases h2 : are_all_checksums_in_one_file e <;> simp [h1, h2]

theorem guessStep_onefile (a : GuessAcc) (e : String) :
    (guessStep a e).onefile =
      if are_all_checksums_in_one_file e then (a.onefile + 1) % 65536
      else a.onefile := by
  unfold guessStep
  by_cases h1 : strContains e ".SHA256SUM" <;>
    by_cases h2 : are_all_checksums_in_one_file e <;> simp [h1, h2]

theorem guessStep_filename (a : GuessAcc) (e : String) :
    (guessStep a e).filename =
      if are_all_checksums_in_one_file e then e else a.filename := by
  unfold guessStep
  by_cases h1 : strContains e ".SHA256SUM" <;>
    by_cases h2 : are_all_checksums_in_one_file e <;> simp [h1, h2]

theorem foldl_guessStep_everyfile :
    ∀ (entries : List String) (a : GuessAcc), a.everyfile < 65536 →
      (entries.foldl guessStep a).everyfile =
        (a.everyfile + entries.countP (fun s => strContains s ".SHA256SUM")) % 65536
  | [], a, ha => by simp [Nat.mod_eq_of_lt ha]
  | e :: tl, a, ha => by
    rw [List.foldl_cons, List.countP_cons]
    by_cases h : strContains e ".SHA256SUM"
    · have hstep : (guessStep a e).everyfile = (a.everyfile + 1) % 65536 := by
        rw [guessStep_everyfile, if_pos h]
      rw [foldl_guessStep_everyfile tl (guessStep a e)
        (by rw [hstep]; exact Nat.mod_lt _ (by norm_num)), hstep, Nat.mod_add_mod]
      simp only [h, if_true]
      omega
    · have hstep : (guessStep a e).everyfile = a.everyfile := by
        rw [guessStep_everyfile, if_neg h]
      rw [foldl_guessStep_everyfile tl (guessStep a e) (by rw [hstep]; exact ha), hstep]
      simp only [h, if_false, Bool.false_eq_true]
      omega

theorem foldl_guessStep_onefile :
    ∀ (entries : List String) (a : GuessAcc), a.onefile < 65536 →
      (entries.foldl guessStep a).onefile =
        (a.onefile + entries.countP are_all_checksums_in_one_file) % 65536
  | [], a, ha => by simp [Nat.mod_eq_of_lt ha]
  | e :: tl, a, ha => by
    rw [List.foldl_cons, List.countP_cons]
    by_cases h : are_all_checksums_in_one_file e
    · have hstep : (guessStep a e).onefile = (a.onefile + 1) % 65536 := by
        rw [guessStep_onefile, if_pos h]
      rw [foldl_guessStep_onefile tl (guessStep a e)
        (by rw [hstep]; exact Nat.mod_lt _ (by norm_num)), hstep, Nat.mod_add_mod]
      simp only [h, if_true]
      omega
    · have hstep : (guessStep a e).onefile = a.onefile := by
        rw [guessStep_onefile, if_neg h]
      rw [foldl_guessStep_onefile tl (guessStep a e) (by rw [hstep]; exact ha), hstep]
      simp only [h, if_false, Bool.false_eq_true]
      omega

theorem getLast?_getD_cons {α : Type} (l : List α) (x d : α) :
    ((x :: l).getLast?).getD d = (l.getLast?).getD x := by
  cases l with
  | nil => rfl
  | cons b t =>
    rw [List.getLast?_cons_cons, List.getLast?_eq_getLast (b :: t) (by simp)]
    rfl

theorem foldl_guessStep_filename :
    ∀ (entries : List String) (a : GuessAcc),
      (entries.foldl guessStep a).filename =
        ((entries.filter are_all_checksums_in_one_file).getLast?).getD a.filename
  | [], a => by simp
  | e :: tl, a => by
    rw [List.foldl_cons, List.filter_cons]
    by_cases h : are_all_checksums_in_one_file e
    · rw [if_pos h, foldl_guessStep_filename tl, guessStep_filename, if_pos h,
        getLast?_getD_cons]
    · rw [if_neg h, foldl_guessStep_filename tl, guessStep_filename, if_neg h]

/-- C6 (amended): the checksum-discovery decision is as the claim states
— aggregate mode iff exactly one listed name satisfies the aggregate
predicate (that one file, the last such name, is downloaded), else
per-file mode iff some name contains `.SHA256SUM`, else none — provided
each of the two counts stays below 2^16: the counters are wrapping
`u16`s. -/
theorem c6_checksum_mode_decision (entries : List String)
    (h1 : entries.countP are_all_checksums_in_one_file < 65536)
    (h2 : entries.countP (fun s => strContains s ".SHA256SUM") < 65536) :
    guess_checksum_type entries =
      if entries.countP are_all_checksums_in_one_file = 1 then
        .OneFile (((entries.filter are_all_checksums_in_one_file).getLast?).getD "")
      else if 1 ≤ entries.countP (fun s => strContains s ".SHA256SUM") then
        .EveryFile
      else .Unknown := by
  unfold guess_checksum_type
  dsimp only
  rw [foldl_guessStep_onefile entries ⟨0, 0, ""⟩ (by norm_num),
    foldl_guessStep_everyfile entries ⟨0, 0, ""⟩ (by norm_num),
    foldl_guessStep_filename entries ⟨0, 0, ""⟩]
  simp only [Nat.zero_add, Nat.mod_eq_of_lt h1, Nat.mod_eq_of_lt h2]

/-- C6 (counterexample): with 65537 aggregate checksum names the `u16`
counter wraps to 1 and the code chooses aggregate mode although the
listing does not contain exactly one matching name. -/
theorem c6_counterexample :
    guess_checksum_type c6entries = .OneFile "CHECKSUM" ∧
    c6entries.countP are_all_checksums_in_one_file ≠ 1 := by
  have hp : are_all_checksums_in_one_file "CHECKSUM" = true := by decide
  have hcount : c6entries.countP are_all_checksums_in_one_file = 65537 := by
    unfold c6entries
    rw [List.countP_replicate, if_pos hp]
  constructor
  · unfold guess_checksum_type
    dsimp only
    rw [foldl_guessStep_onefile c6entries ⟨0, 0, ""⟩ (by norm_num),
      foldl_guessStep_filename c6entries ⟨0, 0, ""⟩, hcount]
    unfold c6entries
    rw [List.filter_replicate, if_pos hp, List.getLast?_replicate]
    norm_num
  · rw [hcount]
    norm_num

/-- Witness for `c6_checksum_mode_decision` on a listing with exactly
one aggregate checksum file. -/
theorem c6_checksum_mode_decision_witness :
    guess_checksum_type c6wEntries =
      if c6wEntries.countP are_all_checksums_in_one_file = 1 then
        .OneFile (((c6wEntries.filter are_all_checksums_in_one_file).getLast?).getD "")
      else if 1 ≤ c6wEntries.countP (fun s => strContains s ".SHA256SUM") then
        .EveryFile
      else .Unknown :=
  c6_checksum_mode_decision c6wEntries (by decide) (by decide)

/-! ### Claim C7 -/

theorem lastSplit_of_nonmem (c : Char) :
    ∀ l : List Char, c ∉ l → lastSplit c l = none
  | [], _ => rfl
  | x :: xs, h => by
    unfold lastSplit
    rw [lastSplit_of_nonmem c xs (fun hm => h (List.mem_cons_of_mem _ hm))]
    have hx : ¬(x = c) := by
      intro he
      rw [← he] at h
      exact h (List.mem_cons_self x xs)
    exact if_neg hx

theorem lastSplit_append (c : Char) (r : List Char) (hr : c ∉ r) :
    ∀ l : List Char, lastSplit c (l ++ c :: r) = some (l, r)
  | [] => by
    simp only [List.nil_append]
    unfold lastSplit
    rw [lastSplit_of_nonmem c r hr, if_pos rfl]
  | x :: xs => by
    simp only [List.cons_append]
    unfold lastSplit
    rw [lastSplit_append c r hr xs]

theorem rsplit_once_append (firstPart lastPart : String) (h : '.' ∉ lastPart.data) :
    rsplit_once (firstPart ++ "." ++ lastPart) '.' = some (firstPart, lastPart) := by
  unfold rsplit_once
  have hd : (firstPart ++ "." ++ lastPart).data =
      firstPart.data ++ '.' :: lastPart.data := by
    rw [String.data_append, String.data_append]
    simp
  rw [hd, lastSplit_append '.' lastPart.data h firstPart.data]
  rfl

/-- C7 (amended): with the `normalize` flag set, a name with a final
extension gets `-YYYYMMDD` inserted before that extension
(`foo.qcow2` with date 2025-07-10 yields `foo-20250710.qcow2`); a name
containing no `.` is left UNCHANGED — no date suffix is appended. -/
theorem c7_normalize_inserts_date_before_extension :
    (∀ (dest : String) (d : NDateTime) (firstPart lastPart : String),
      '.' ∉ lastPart.data →
      get_filename_destination (firstPart ++ "." ++ lastPart) dest true d =
        some (dest ++ "/" ++ (firstPart ++ "-" ++ fmtYMD d ++ "." ++ lastPart))) ∧
    (∀ (dest : String) (d : NDateTime) (nm : String),
      '.' ∉ nm.data →
      get_filename_destination nm dest true d = some (dest ++ "/" ++ nm)) := by
  constructor
  · intro dest d firstPart lastPart h
    unfold get_filename_destination
    rw [rsplit_once_append firstPart lastPart h]
  · intro dest d nm h
    unfold get_filename_destination
    have hn : rsplit_once nm '.' = none := by
      unfold rsplit_once
      rw [lastSplit_of_nonmem '.' nm.data h]
      rfl
    rw [hn]

/-- C7 (counterexample): with `normalize` set and an extension-less
image name the code leaves the name unchanged; the claim expects the
date suffix `-20250710` to be appended. -/
theorem c7_counterexample :
    get_filename_destination "foo" "/dst" true c7date = some "/dst/foo" ∧
    ("/dst/foo" : String) ≠ "/dst/foo-20250710" := by
  decide

/-- Witness for `c7_normalize_inserts_date_before_extension` at the
spec §8 normalize scenario. -/
theorem c7_normalize_inserts_date_before_extension_witness :
    get_filename_destination ("foo" ++ "." ++ "qcow2") "/dst" true c7date =
      some ("/dst" ++ "/" ++ ("foo" ++ "-" ++ fmtYMD c7date ++ "." ++ "qcow2")) :=
  c7_normalize_inserts_date_before_extension.1 "/dst" c7date "foo" "qcow2" (by decide)

/-! ### Claim C8 -/

/-- C8: the history-existence check used by the selector
(`CloudImage::is_in_db`) returns `false` whenever `prepare` or `query`
fails, and returns `true` only when a stored row matches the image's
name, `Display`-stringified checksum, and `%Y-%m-%d %H:%M:%S`
timestamp. -/
theorem c8_history_check_errors_degrade_to_false (db : DbImageHistory)
    (img : CloudImage) :
    ((db.prepareFails || db.queryFails) = true → img.is_in_db db = false) ∧
    (img.is_in_db db = true →
      ∃ r ∈ db.rows, r.name = img.name ∧
        r.checksum = img.checksum.displayString ∧ r.date = fmtFull img.date) := by
  constructor
  · intro herr
    unfold CloudImage.is_in_db is_image_in_db
    dsimp only
    cases hp : db.prepareFails with
    | true => simp [hp]
    | false =>
      have hq : db.queryFails = true := by simpa [hp] using herr
      simp [hp, hq]
  · intro htrue
    unfold CloudImage.is_in_db is_image_in_db at htrue
    dsimp only at htrue
    by_cases hp : db.prepareFails = true
    · simp [hp] at htrue
    · simp only [Bool.not_eq_true] at hp
      rw [hp] at htrue
      by_cases hq : db.queryFails = true
      · simp [hq] at htrue
      · simp only [Bool.not_eq_true] at hq
        rw [hq] at htrue
        simp only [Bool.false_eq_true, if_false] at htrue
        cases hfil : db.rows.filter (fun r =>
            decide (r.name = img.name) &&
            decide (r.checksum = img.checksum.displayString) &&
            decide (r.date = fmtFull img.date)) with
        | nil => rw [hfil] at htrue; simp at htrue
        | cons r t =>
          have hr : r ∈ db.rows.filter (fun r =>
              decide (r.name = img.name) &&
              decide (r.checksum = img.checksum.displayString) &&
              decide (r.date = fmtFull img.date)) := by
            rw [hfil]
            exact List.mem_cons_self r t
          have hmem := List.mem_filter.mp hr
          refine ⟨r, hmem.1, ?_⟩
          have hpr := hmem.2
          simp only [Bool.and_eq_true, decide_eq_true_eq] at hpr
          exact ⟨hpr.1.1, hpr.1.2, hpr.2⟩

/-- Witness for `c8_history_check_errors_degrade_to_false`: a failing
query yields `false`, and a true answer on the healthy store `c8dbOk`
names the matching row. -/
theorem c8_history_check_errors_degrade_to_false_witness :
    (c8img.is_in_db c8dbErr = false) ∧
    (∃ r ∈ c8dbOk.rows, r.name = c8img.name ∧
      r.checksum = c8img.checksum.displayString ∧ r.date = fmtFull c8img.date) :=
  ⟨(c8_history_check_errors_degrade_to_false c8dbErr c8img).1 (by decide),
   (c8_history_check_errors_degrade_to_false c8dbOk c8img).2 (by decide)⟩

/-! ### Claim C10 -/

theorem save_image_in_db_prepareFails (db : DbImageHistory) (img : CloudImage) :
    (save_image_in_db db img).prepareFails = db.prepareFails := by
  unfold save_image_in_db
  dsimp only
  split <;> rfl

theorem save_image_in_db_queryFails (db : DbImageHistory) (img : CloudImage) :
    (save_image_in_db db img).queryFails = db.queryFails := by
  unfold save_image_in_db
  dsimp only
  split <;> rfl

theorem save_image_in_db_row_mem (db : DbImageHistory) (img : CloudImage) :
    (⟨img.name, img.checksum.displayString, fmtFull img.date⟩ : HistRow) ∈
      (save_image_in_db db img).rows := by
  unfold save_image_in_db
  dsimp only
  split
  · assumption
  · exact List.mem_append_right db.rows (List.mem_cons_self _ _)

theorem is_image_in_db_of_row_mem (db : DbImageHistory) (img : CloudImage)
    (hp : db.prepareFails = false) (hq : db.queryFails = false)
    (hmem : (⟨img.name, img.checksum.displayString, fmtFull img.date⟩ : HistRow) ∈
      db.rows) :
    is_image_in_db db (some img) = .ok true := by
  unfold is_image_in_db
  dsimp only
  rw [hp, hq]
  simp only [Bool.false_eq_true, if_false]
  have hmemf : (⟨img.name, img.checksum.displayString, fmtFull img.date⟩ : HistRow) ∈
      db.rows.filter (fun r =>
        decide (r.name = img.name) &&
        decide (r.checksum = img.checksum.displayString) &&
        decide (r.date = fmtFull img.date)) := by
    rw [List.mem_filter]
    exact ⟨hmem, by simp⟩
  cases hfil : db.rows.filter (fun r =>
      decide (r.name = img.name) &&
      decide (r.checksum = img.checksum.displayString) &&
      decide (r.date = fmtFull img.date)) with
  | nil => rw [hfil] at hmemf; simp at hmemf
  | cons r t =>
    have hr : r ∈ db.rows.filter (fun r =>
        decide (r.name = img.name) &&
        decide (r.checksum = img.checksum.displayString) &&
        decide (r.date = fmtFull img.date)) := by
      rw [hfil]
      exact List.mem_cons_self r t
    have hpr := (List.mem_filter.mp hr).2
    simp only [Bool.and_eq_true, decide_eq_true_eq] at hpr
    simp [hpr.1.1, hpr.1.2, hpr.2]

/-- C10: the history round-trip — after `save_image_in_db` the query
`is_image_in_db` answers `Ok(true)` (on a store whose `prepare`/`query`
do not fail), because both operations stringify the checksum with the
same `Display`; that `Display` (a `writeln!`) ends every checksum string
with a newline, and `CheckSums::None` is stored as a bare newline. -/
theorem c10_save_then_query_roundtrip (db : DbImageHistory) (img : CloudImage)
    (hp : db.prepareFails = false) (hq : db.queryFails = false) :
    is_image_in_db (save_image_in_db db img) (some img) = .ok true ∧
    (∀ c : CheckSums, (CheckSums.displayString c).data.getLast? = some '\n') ∧
    CheckSums.displayString CheckSums.None = "\n" := by
  refine ⟨?_, ?_, rfl⟩
  · exact is_image_in_db_of_row_mem (save_image_in_db db img) img
      (by rw [save_image_in_db_prepareFails, hp])
      (by rw [save_image_in_db_queryFails, hq])
      (save_image_in_db_row_mem db img)
  · intro c
    cases c with
    | None => rfl
    | Sha256 chk =>
      show ((chk ++ "\n").data).getLast? = some '\n'
      rw [String.data_append]
      exact List.getLast?_concat _
    | Sha512 chk =>
      show ((chk ++ "\n").data).getLast? = some '\n'
      rw [String.data_append]
      exact List.getLast?_concat _

/-- Witness for `c10_save_then_query_roundtrip` on an empty healthy
store and a `CheckSums::None` image. -/
theorem c10_save_then_query_roundtrip_witness :
    is_image_in_db (save_image_in_db c10db c10img) (some c10img) = .ok true :=
  (c10_save_then_query_roundtrip c10db c10img rfl rfl).1

/-! ### Claim C1 -/

/-- C1 (amended): an image with `CheckSums::None` that is scheduled for
verification (`image_has_been_downloaded` accepts it) and whose
destination file can be opened IS passed to `save_image_in_db` — its
verification is a logged pass-through that returns `true`, and
`verify_downloaded_file` then inserts it into the history store. -/
theorem c1_checksum_none_image_is_saved (ls : List WSImageList) (ws : WSImageList)
    (img : CloudImage) (summaries : List Summary) (vskip : Bool) (env : Env)
    (fn : String) (bytes : List Nat)
    (hws : ws ∈ ls) (himg : img ∈ ws.images_list)
    (hnone : img.checksum = CheckSums.None)
    (hdl : image_has_been_downloaded summaries img ws.website.destination vskip
      ws.website.normalize env = true)
    (hfn : get_filename_destination img.name ws.website.destination
      ws.website.normalize img.date = some fn)
    (hfs : env.fs fn = some bytes) :
    img ∈ verify_downloaded_file ls summaries vskip env := by
  unfold verify_downloaded_file
  rw [List.mem_flatMap]
  refine ⟨ws, hws, ?_⟩
  rw [List.mem_filterMap]
  refine ⟨img, himg, ?_⟩
  have hver : img.verify ws.website.destination ws.website.normalize env = true := by
    unfold CloudImage.verify
    rw [hfn]
    unfold verify_file
    dsimp only
    rw [hfs, hnone]
  simp [hdl, hver]

/-- C1 (counterexample): a successfully downloaded image with
`CheckSums::None` is inserted into the history store — the run performs
exactly the `save_image_in_db` call the claim rules out. -/
theorem c1_counterexample :
    verify_downloaded_file [c1ws] [c1sum] false c1env = [c1img] ∧
    c1img.checksum = CheckSums.None := by
  decide

/-- Witness for `c1_checksum_none_image_is_saved` at the concrete C1
scenario. -/
theorem c1_checksum_none_image_is_saved_witness :
    c1img ∈ verify_downloaded_file [c1ws] [c1sum] false c1env :=
  c1_checksum_none_image_is_saved [c1ws] c1ws c1img [c1sum] false c1env
    "/dst/img.qcow2" [] (by decide) (by decide) rfl (by decide) (by decide) rfl
